import Mathlib

/-!
Shallow embedding of `cliconfig/loader.go`: a CLI configuration loader that
merges values from command-line flags/positional arguments, environment
variables and an optional config file into a typed config object, then applies
normalization, deprecation/rename migration and validation.

Modelling conventions:
* Go `reflect.Kind` of a config field is `FieldKind`; every kind other than
  string/slice/bool/int is collapsed into `FieldKind.other` (the code treats
  them all uniformly: conversion errors or panics).
* A typed field value is `Value`; a Go `interface{}` that may be nil is
  `Option Value`.
* The process environment is a function `String → Option String`
  (`os.LookupEnv`); `os.Getenv` is derived from it.
* The parsed config file (`l.File.Config`, a Go `map[string]string`) is a
  function `String → Option String`; `l.File == nil` is `Option` of that.
* Go panics (from `fieldValueIsEmpty` and `reflect.Value.Len`) are modelled by
  the `LoadResult.panicked` constructor / by `Option.none` results.
* `fmt` verb `%v` on the supported dynamic types is `fmtValue`.
-/

namespace CliConfig

/-- The `reflect.Kind` of a config struct field. All kinds other than the four
the loader supports are collapsed into `other`. -/
inductive FieldKind where
  | string
  | slice
  | bool
  | int
  | other
deriving DecidableEq, Repr

/-- A typed value held in (or assigned to) a config field. -/
inductive Value where
  | str (s : String)
  | list (l : List String)
  | bool (b : Bool)
  | int (n : Int)
deriving DecidableEq, Repr

/-- Does a dynamic value's type match a field kind (so that
`reflections.SetField` succeeds)? -/
def variantMatches : FieldKind → Value → Bool
  | .string, .str _ => true
  | .slice, .list _ => true
  | .bool, .bool _ => true
  | .int, .int _ => true
  | _, _ => false

/-- Printed name of a field kind (`reflect.Kind.String()`); for `other` it is a
stand-in for whatever unsupported kind the field has. -/
def kindName : FieldKind → String
  | .string => "string"
  | .slice => "slice"
  | .bool => "bool"
  | .int => "int"
  | .other => "other"

/-- Go formatting verb `%v` applied to a supported dynamic value. -/
def fmtValue : Value → String
  | .str s => s
  | .list l => "[" ++ String.intercalate " " l ++ "]"
  | .bool b => if b then "true" else "false"
  | .int n => toString n

/-- An apostrophe character, used in some of the loader's messages. -/
def apos : String := String.singleton (Char.ofNat 39)

/-- A flag registered on the CLI command, with its declared environment
variable (`cli.Flag`'s `Name` and `EnvVar` fields). -/
structure CLIFlag where
  name : String
  envVar : String

/-- The `cli.Context` collaborator: typed flag accessors, positional
arguments, the explicit-set query, the command's flag list, and the app and
command names used in help-suffixed errors. -/
structure CLIContext where
  stringFlag : String → String
  sliceFlag : String → List String
  boolFlag : String → Bool
  intFlag : String → Int
  args : List String
  isSet : String → Bool
  flags : List CLIFlag
  appName : String
  commandName : String

/-- `os.Getenv`: empty string when the variable is unset. -/
def getenv (env : String → Option String) (name : String) : String :=
  (env name).getD ""

/-- `strconv.ParseBool` with its error discarded (as the loader does):
the strict boolean literals parse to their value, anything else yields
`false`. -/
def goParseBool (s : String) : Bool :=
  s == "1" || s == "t" || s == "T" || s == "true" || s == "TRUE" || s == "True"

/-- Numeric value of a list of decimal digit characters. -/
def digitsVal (cs : List Char) : Nat :=
  cs.foldl (fun n c => 10 * n + (c.toNat - 48)) 0

/-- `strconv.Atoi` with its error discarded (as the loader does): an optional
sign followed by decimal digits parses to its value, anything else yields `0`.
Overflow of Go's 64-bit `int` is not modelled. -/
def goAtoi (s : String) : Int :=
  match s.data with
  | [] => 0
  | '+' :: rest =>
      if !rest.isEmpty && rest.all Char.isDigit then (digitsVal rest : Int) else 0
  | '-' :: rest =>
      if !rest.isEmpty && rest.all Char.isDigit then -(digitsVal rest : Int) else 0
  | cs =>
      if cs.all Char.isDigit then (digitsVal cs : Int) else 0

/-- Helper for `goSplitComma`: split the remaining characters around each
comma, `acc` holding the current token's characters in reverse. -/
def splitCommaAux : List Char → List Char → List String
  | [], acc => [String.mk acc.reverse]
  | c :: rest, acc =>
      if c = ',' then String.mk acc.reverse :: splitCommaAux rest []
      else splitCommaAux rest (c :: acc)

/-- Go `strings.Split(s, ",")`: the substrings around each comma; the empty
string splits to `[""]`. -/
def goSplitComma (s : String) : List String :=
  splitCommaAux s.data []

/-- When the character list starts with the literal `arg:`, return the
remainder. Helper for `findArg`. -/
def argTagRest : List Char → Option (List Char)
  | 'a' :: 'r' :: 'g' :: ':' :: rest => some rest
  | _ => none

/-- `argCliNameRegexp.FindStringSubmatch` for the pattern `arg:(\d+)`:
scan for the leftmost occurrence of `arg:` followed by at least one decimal
digit and return the value of the maximal digit run (the capture group),
or `none` when the name does not match the positional pattern. -/
def findArg : List Char → Option Nat
  | [] => none
  | c :: rest =>
      match argTagRest (c :: rest) with
      | some after =>
          let ds := after.takeWhile Char.isDigit
          if ds.isEmpty then findArg rest else some (digitsVal ds)
      | none => findArg rest

/-- The loop body of `cliValueIsSet`: walk the command's flags; at the first
flag whose `Name` equals the binding name and whose `EnvVar` is non-empty,
report whether that environment variable (whitespace-trimmed) is non-empty in
the process environment. -/
def envSetViaFlags (env : String → Option String) (cliName : String) :
    List CLIFlag → Bool
  | [] => false
  | f :: rest =>
      if f.name == cliName && f.envVar != "" then
        getenv env f.envVar.trim != ""
      else envSetViaFlags env cliName rest

/-- `Loader.cliValueIsSet`: the binding is explicitly set either directly on
the command line (`cli.Context#IsSet`) or via its declared environment
variable being non-empty. -/
def cliValueIsSet (ctx : CLIContext) (env : String → Option String)
    (cliName : String) : Bool :=
  if ctx.isSet cliName then true else envSetViaFlags env cliName ctx.flags

/-- Conversion of a config-file string to the field's kind
(`setFieldValueFromCLI`, file-value branch): string passthrough, slice by
comma-split, bool via `strconv.ParseBool`, int via `strconv.Atoi` (both with
their errors discarded); any other kind is an error. -/
def convertFileValue (kind : FieldKind) (s : String) : Except String Value :=
  match kind with
  | .string => .ok (.str s)
  | .slice => .ok (.list (goSplitComma s))
  | .bool => .ok (.bool (goParseBool s))
  | .int => .ok (.int (goAtoi s))
  | .other => .error ("Unable to convert string to type " ++ kindName .other)

/-- Reading the binding's value from the CLI context by the field's kind
(`setFieldValueFromCLI`, context branch); any other kind is an error. -/
def cliContextValue (ctx : CLIContext) (kind : FieldKind) (cliName : String) :
    Except String Value :=
  match kind with
  | .string => .ok (.str (ctx.stringFlag cliName))
  | .slice => .ok (.list (ctx.sliceFlag cliName))
  | .bool => .ok (.bool (ctx.boolFlag cliName))
  | .int => .ok (.int (ctx.intFlag cliName))
  | .other => .error ("Unable to handle type: " ++ kindName .other)

/-- `reflections.SetField`: assigning a value whose dynamic type does not
match the field's kind fails, naming the value and the field. -/
def setField (fieldName : String) (kind : FieldKind) (v : Value) :
    Except String Value :=
  if variantMatches kind v then .ok v
  else
    .error ("Could not set value `" ++ fmtValue v ++ "` to field `" ++
      fieldName ++ "` (type mismatch)")

/-- The value-determination phase of `setFieldValueFromCLI` (everything before
the final `if value != nil` assignment): positional/env-argument fields take
the positional argument at the tag's index when the argument list is long
enough, else the field's `env` tag variable when set; named fields start from
the converted config-file value and are overridden by the CLI-context value
when no file value exists or `cliValueIsSet` holds. `Except.ok none` means no
value was determined. -/
def resolveValue (ctx : CLIContext) (env : String → Option String)
    (file : Option (String → Option String)) (kind : FieldKind)
    (cliName envTag : String) : Except String (Option Value) :=
  match findArg cliName.data with
  | some argIndex =>
      let fromArgs : Option Value :=
        if h : argIndex < ctx.args.length then
          some (.str (ctx.args.get ⟨argIndex, h⟩))
        else none
      let v : Option Value :=
        match fromArgs with
        | some v => some v
        | none =>
            match env envTag with
            | some envValue => some (.str envValue)
            | none => none
      .ok v
  | none =>
      let fileVal : Except String (Option Value) :=
        match file with
        | none => .ok none
        | some cfg =>
            match cfg cliName with
            | none => .ok none
            | some s =>
                match convertFileValue kind s with
                | .error e => .error e
                | .ok v => .ok (some v)
      match fileVal with
      | .error e => .error e
      | .ok fv =>
          if fv.isNone || cliValueIsSet ctx env cliName then
            match cliContextValue ctx kind cliName with
            | .error e => .error e
            | .ok v => .ok (some v)
          else .ok fv

/-- `Loader.setFieldValueFromCLI`: determine a value, then assign it to the
field only when one was determined; the result is the field's value after the
call (the field keeps `oldValue` when nothing was determined). -/
def setFieldValueFromCLI (ctx : CLIContext) (env : String → Option String)
    (file : Option (String → Option String)) (kind : FieldKind)
    (fieldName cliName envTag : String) (oldValue : Value) :
    Except String Value :=
  match resolveValue ctx env file kind cliName envTag with
  | .error e => .error e
  | .ok none => .ok oldValue
  | .ok (some v) => setField fieldName kind v

/-- Outcome of a loader step that may also panic (Go `panic`), unlike the
`error` return path. -/
inductive LoadResult (α : Type) where
  | ok (a : α)
  | err (msg : String)
  | panicked (msg : String)
deriving DecidableEq, Repr

/-- The message of the `panic` in `fieldValueIsEmpty`. -/
def emptinessPanicMsg (kind : FieldKind) : String :=
  "Can" ++ apos ++ "t determine empty-ness for field type " ++ kindName kind

/-- `Loader.fieldValueIsEmpty`: emptiness of a field's value by its kind.
`none` models a panic: the explicit `panic` for an unsupported kind, and the
`reflect.Value.Len` panic when a slice-kind field holds a non-slice value.
The string/bool/int cases compare the dynamic value against `""`/`false`/`0`
exactly as Go interface equality does. -/
def fieldValueIsEmpty (kind : FieldKind) (v : Value) : Option Bool :=
  match kind with
  | .string => some (v == .str "")
  | .slice =>
      match v with
      | .list l => some l.isEmpty
      | _ => none
  | .bool => some (v == .bool false)
  | .int => some (v == .int 0)
  | .other => none

/-- The help suffix `Loader.Errorf` appends to user-facing errors. -/
def helpSuffix (appName commandName : String) : String :=
  " See: `" ++ appName ++ " " ++ commandName ++ " --help`"

/-- The rule loop of `Loader.validateField`: `required` fails with
`Missing <label>.` (help-suffixed) on an empty value; `file-exists` checks the
filesystem (`fs` models `os.Stat` succeeding) only when the value is a string,
silently skipping other values; any other rule name is a schema error. -/
def validateRules (fs : String → Bool) (kind : FieldKind) (v : Value)
    (label appName commandName : String) : List String → LoadResult Unit
  | [] => .ok ()
  | rule :: rest =>
      if rule == "required" then
        match fieldValueIsEmpty kind v with
        | none => .panicked (emptinessPanicMsg kind)
        | some true =>
            .err ("Missing " ++ label ++ "." ++ helpSuffix appName commandName)
        | some false => validateRules fs kind v label appName commandName rest
      else if rule == "file-exists" then
        match v with
        | .str s =>
            if fs s then validateRules fs kind v label appName commandName rest
            else .err ("Could not find " ++ label ++ " located at " ++ s)
        | _ => validateRules fs kind v label appName commandName rest
      else .err ("Unknown config validation rule `" ++ rule ++ "`")

/-- `Loader.validateField`: split the `validate` tag on commas and run each
rule in order. -/
def validateField (fs : String → Bool) (kind : FieldKind) (v : Value)
    (label appName commandName validationRules : String) : LoadResult Unit :=
  validateRules fs kind v label appName commandName
    (goSplitComma validationRules)

/-- Label determination in `Loader.Load` before validation: the `label` tag if
present, else the `cli` tag, else the raw struct field name. -/
def labelFor (labelTag cliName fieldName : String) : String :=
  if labelTag != "" then labelTag
  else if cliName != "" then cliName
  else fieldName

/-- The warning emitted for a renamed config option. -/
def renameWarning (cliName renamedCliName : String) : String :=
  "The config option `" ++ cliName ++ "` has been renamed to `" ++
    renamedCliName ++ "`. Please update your configuration."

/-- The conflict error emitted when both the deprecated option and its
replacement are set. -/
def renameConflictError (cliName : String) (v : Value)
    (renamedCliName : String) (rv : Value) : String :=
  "Can" ++ apos ++ "t set config option `" ++ cliName ++ "=" ++ fmtValue v ++
    "` because `" ++ renamedCliName ++ "=" ++ fmtValue rv ++
    "` has already been set"

/-- The `deprecated-and-renamed-to` step of `Loader.Load` for one field:
`kind`/`v` are the deprecated field's kind and resolved value, and
`renamedKind`/`rv` the replacement field's. When the deprecated value is
non-empty: the rename warning is appended when the replacement field has a
`cli` tag; then, if the replacement's value is also non-empty, the step fails
with the conflict error, else the deprecated value is copied into the
replacement field. Returns the warning list and the replacement field's value
after the step. (In Go the warnings accumulated so far are also returned
alongside a failure; only the error is modelled on the failure paths.) -/
def renameStep (kind renamedKind : FieldKind)
    (cliName renamedCliName renamedFieldName : String) (v rv : Value)
    (warnings : List String) : LoadResult (List String × Value) :=
  match fieldValueIsEmpty kind v with
  | none => .panicked (emptinessPanicMsg kind)
  | some true => .ok (warnings, rv)
  | some false =>
      let warnings1 :=
        if renamedCliName != "" then
          warnings ++ [renameWarning cliName renamedCliName]
        else warnings
      match fieldValueIsEmpty renamedKind rv with
      | none => .panicked (emptinessPanicMsg renamedKind)
      | some false => .err (renameConflictError cliName v renamedCliName rv)
      | some true =>
          match setField renamedFieldName renamedKind v with
          | .error e => .err e
          | .ok nv => .ok (warnings1, nv)

/-- The `deprecated` step of `Loader.Load` for one field: when the field's
resolved value is non-empty, append the deprecation warning; never fail. -/
def deprecatedStep (kind : FieldKind) (v : Value)
    (cliName deprecationError : String) (warnings : List String) :
    LoadResult (List String) :=
  match fieldValueIsEmpty kind v with
  | none => .panicked (emptinessPanicMsg kind)
  | some false =>
      .ok (warnings ++
        ["The config option `" ++ cliName ++ "` has been deprecated: " ++
          deprecationError])
  | some true => .ok warnings

/-- The scan over `DefaultConfigFilePaths` in `Loader.Load`: the first
existing path wins. -/
def firstExisting (ex : String → Bool) : List String → Option String
  | [] => none
  | p :: rest => if ex p then some p else firstExisting ex rest

/-- The config-file selection phase of `Loader.Load`: an explicitly passed
`--config` path must exist (else fail naming its absolute path, `abs`
modelling `File.AbsolutePath`); otherwise the first existing default candidate
is selected, and none existing is not an error. -/
def selectConfigFile (configFlag : String) (defaults : List String)
    (ex : String → Bool) (abs : String → String) :
    Except String (Option String) :=
  if configFlag != "" then
    if ex configFlag then .ok (some configFlag)
    else
      .error ("A configuration file could not be found at: \"" ++
        abs configFlag ++ "\"")
  else if defaults.length > 0 then .ok (firstExisting ex defaults)
  else .ok none

/-- The `list` normalization loop of `Loader.normalizeField`: split every
element on commas, dropping empty tokens, accumulating in order. -/
def normalizeList (l : List String) : List String :=
  l.foldl
    (fun acc value =>
      (goSplitComma value).foldl
        (fun acc2 tok => if tok == "" then acc2 else acc2 ++ [tok]) acc)
    []

/-- The `list` branch of `Loader.normalizeField`: only slice fields may carry
it; a slice field holding a string list is replaced by its normalization (a
failed type assertion silently leaves the field alone). -/
def normalizeFieldList (kind : FieldKind) (v : Value) : Except String Value :=
  if kind != .slice then
    .error "list normalization only works on slice fields"
  else
    match v with
    | .list l => .ok (.list (normalizeList l))
    | _ => .ok v

/-! ## Helper lemmas -/

/-- The inner token loop of `normalizeList` appends exactly the non-empty
tokens, in order. -/
theorem foldl_keepNonEmpty (toks acc : List String) :
    toks.foldl (fun acc2 tok => if tok == "" then acc2 else acc2 ++ [tok]) acc
      = acc ++ toks.filter (fun t => t != "") := by
  induction toks generalizing acc with
  | nil => simp
  | cons hd tl ih =>
      by_cases hhd : hd = ""
      · subst hhd
        simpa using ih acc
      · simpa [List.filter_cons, hhd, List.append_assoc] using ih (acc ++ [hd])

/-- The outer loop of `normalizeList` appends the flattened non-empty tokens
of every element, in order. -/
theorem foldl_normalize (l acc : List String) :
    l.foldl
        (fun acc value =>
          (goSplitComma value).foldl
            (fun acc2 tok => if tok == "" then acc2 else acc2 ++ [tok]) acc)
        acc
      = acc ++ ((l.map goSplitComma).flatten.filter (fun t => t != "")) := by
  induction l generalizing acc with
  | nil => simp
  | cons hd tl ih =>
      rw [List.foldl_cons, ih]
      show ((goSplitComma hd).foldl
          (fun acc2 tok => if tok == "" then acc2 else acc2 ++ [tok]) acc) ++ _
        = _
      rw [foldl_keepNonEmpty, List.map_cons, List.flatten_cons,
        List.filter_append, List.append_assoc]

/-- `normalizeList` flattens every element on commas and keeps exactly the
non-empty tokens, in order. -/
theorem normalizeList_eq (l : List String) :
    normalizeList l = ((l.map goSplitComma).flatten).filter (fun t => t != "") := by
  have h := foldl_normalize l []
  simpa [normalizeList] using h

/-- The default-path scan of `Loader.Load` selects the first existing
candidate. -/
theorem firstExisting_eq_find (ex : String → Bool) (l : List String) :
    firstExisting ex l = l.find? ex := by
  induction l with
  | nil => rfl
  | cons hd tl ih =>
      by_cases h : ex hd
      · simp [firstExisting, List.find?, h]
      · simp [firstExisting, List.find?, h, ih]

/-! ## Claims -/

/-- C1: for a named (non-positional) field, when the config file supplies a
value and the command context does not have the binding explicitly set
(neither via direct flag usage nor via its declared environment variable being
non-empty, i.e. `cliValueIsSet` is false), the resolved value is the
(type-converted) config-file value; when the binding is explicitly set, the
command-context value wins over the file value. -/
theorem c1_named_field_precedence
    (ctx : CLIContext) (env : String → Option String)
    (cfg : String → Option String) (kind : FieldKind)
    (fieldName cliName envTag : String) (oldValue : Value) (s : String)
    (hname : findArg cliName.data = none)
    (hfile : cfg cliName = some s)
    (hkind : kind ≠ FieldKind.other) :
    (cliValueIsSet ctx env cliName = false →
      setFieldValueFromCLI ctx env (some cfg) kind fieldName cliName envTag
          oldValue
        = convertFileValue kind s)
    ∧ (cliValueIsSet ctx env cliName = true →
      setFieldValueFromCLI ctx env (some cfg) kind fieldName cliName envTag
          oldValue
        = cliContextValue ctx kind cliName) := by
  refine ⟨fun h => ?_, fun h => ?_⟩ <;> cases kind <;>
    first
      | exact absurd rfl hkind
      | simp [setFieldValueFromCLI, resolveValue, hname, hfile,
          convertFileValue, cliContextValue, setField, variantMatches, h]

/-- C1 witness: file `foo=bar` with an unset flag resolves to `bar`; file
`foo=bar` with the flag explicitly set to `baz` resolves to `baz`. -/
theorem c1_witness :
    setFieldValueFromCLI
        { stringFlag := fun _ => "baz", sliceFlag := fun _ => [],
          boolFlag := fun _ => false, intFlag := fun _ => 0, args := [],
          isSet := fun _ => false, flags := [], appName := "app",
          commandName := "cmd" }
        (fun _ => none) (some (fun k => if k == "foo" then some "bar" else none))
        .string "Field" "foo" "" (.str "")
      = .ok (.str "bar")
    ∧ setFieldValueFromCLI
        { stringFlag := fun _ => "baz", sliceFlag := fun _ => [],
          boolFlag := fun _ => false, intFlag := fun _ => 0, args := [],
          isSet := fun _ => true, flags := [], appName := "app",
          commandName := "cmd" }
        (fun _ => none) (some (fun k => if k == "foo" then some "bar" else none))
        .string "Field" "foo" "" (.str "")
      = .ok (.str "baz") := by
  constructor
  · exact
      ((c1_named_field_precedence
        { stringFlag := fun _ => "baz", sliceFlag := fun _ => [],
          boolFlag := fun _ => false, intFlag := fun _ => 0, args := [],
          isSet := fun _ => false, flags := [], appName := "app",
          commandName := "cmd" }
        (fun _ => none) (fun k => if k == "foo" then some "bar" else none)
        .string "Field" "foo" "" (.str "") "bar" (by decide) rfl
        (by decide)).1 rfl).trans rfl
  · exact
      ((c1_named_field_precedence
        { stringFlag := fun _ => "baz", sliceFlag := fun _ => [],
          boolFlag := fun _ => false, intFlag := fun _ => 0, args := [],
          isSet := fun _ => true, flags := [], appName := "app",
          commandName := "cmd" }
        (fun _ => none) (fun k => if k == "foo" then some "bar" else none)
        .string "Field" "foo" "" (.str "") "bar" (by decide) rfl
        (by decide)).2 rfl).trans rfl

/-- C2: for a field renamed to another field, when its resolved value is
non-empty: if the replacement's value is also non-empty the step fails with
the conflict error naming both binding names and both values; otherwise the
value is copied into the replacement field and the migration warning is
appended. (Stated for a replacement field of the same kind with a `cli`
binding name, as the rename directive is used.) -/
theorem c2_rename_migration
    (kind : FieldKind) (cliName renamedCliName renamedFieldName : String)
    (v rv : Value) (warnings : List String)
    (hmatch : variantMatches kind v = true)
    (hne : fieldValueIsEmpty kind v = some false)
    (hcli : renamedCliName ≠ "") :
    (fieldValueIsEmpty kind rv = some false →
      renameStep kind kind cliName renamedCliName renamedFieldName v rv
          warnings
        = .err (renameConflictError cliName v renamedCliName rv))
    ∧ (fieldValueIsEmpty kind rv = some true →
      renameStep kind kind cliName renamedCliName renamedFieldName v rv
          warnings
        = .ok (warnings ++ [renameWarning cliName renamedCliName], v)) := by
  refine ⟨fun h => ?_, fun h => ?_⟩ <;>
    simp [renameStep, hne, h, hcli, setField, hmatch]

/-- C2 witness: deprecated `old=5` with replacement `new=6` set fails with the
conflict error; deprecated `old=5` with replacement unset (`0`) copies `5`
into the replacement and emits one warning. -/
theorem c2_witness :
    renameStep .int .int "old" "new" "NewField" (.int 5) (.int 6) []
      = .err (renameConflictError "old" (.int 5) "new" (.int 6))
    ∧ renameStep .int .int "old" "new" "NewField" (.int 5) (.int 0) []
      = .ok ([renameWarning "old" "new"], .int 5) := by
  constructor
  · exact
      (c2_rename_migration .int "old" "new" "NewField" (.int 5) (.int 6) []
        (by decide) (by decide) (by decide)).1 (by decide)
  · simpa using
      (c2_rename_migration .int "old" "new" "NewField" (.int 5) (.int 0) []
        (by decide) (by decide) (by decide)).2 (by decide)

/-- C3: with no command-context override, a config-file value is converted by
the field's kind: string passthrough, list by comma-split, boolean via
`strconv.ParseBool` (strict boolean literals, anything else yielding `false`
since the error is discarded), integer via base-10 `strconv.Atoi`; any other
kind fails resolution with the unsupported-type error. -/
theorem c3_file_value_conversion
    (ctx : CLIContext) (env : String → Option String)
    (cfg : String → Option String)
    (fieldName cliName envTag : String) (oldValue : Value) (s : String)
    (hname : findArg cliName.data = none)
    (hfile : cfg cliName = some s)
    (hnoset : cliValueIsSet ctx env cliName = false) :
    setFieldValueFromCLI ctx env (some cfg) .string fieldName cliName envTag
        oldValue = .ok (.str s)
    ∧ setFieldValueFromCLI ctx env (some cfg) .slice fieldName cliName envTag
        oldValue = .ok (.list (goSplitComma s))
    ∧ setFieldValueFromCLI ctx env (some cfg) .bool fieldName cliName envTag
        oldValue = .ok (.bool (goParseBool s))
    ∧ setFieldValueFromCLI ctx env (some cfg) .int fieldName cliName envTag
        oldValue = .ok (.int (goAtoi s))
    ∧ setFieldValueFromCLI ctx env (some cfg) .other fieldName cliName envTag
        oldValue
      = .error ("Unable to convert string to type " ++ kindName .other) := by
  refine ⟨?_, ?_, ?_, ?_, ?_⟩ <;>
    simp [setFieldValueFromCLI, resolveValue, hname, hfile, convertFileValue,
      setField, variantMatches, hnoset]

/-- C3 witness: the four conversions and the unsupported-kind error on a
concrete file value. -/
theorem c3_witness :
    setFieldValueFromCLI
        { stringFlag := fun _ => "", sliceFlag := fun _ => [],
          boolFlag := fun _ => false, intFlag := fun _ => 0, args := [],
          isSet := fun _ => false, flags := [], appName := "app",
          commandName := "cmd" }
        (fun _ => none) (some (fun k => if k == "foo" then some "true" else none))
        .bool "Field" "foo" "" (.bool false)
      = .ok (.bool true)
    ∧ setFieldValueFromCLI
        { stringFlag := fun _ => "", sliceFlag := fun _ => [],
          boolFlag := fun _ => false, intFlag := fun _ => 0, args := [],
          isSet := fun _ => false, flags := [], appName := "app",
          commandName := "cmd" }
        (fun _ => none) (some (fun k => if k == "foo" then some "true" else none))
        .other "Field" "foo" "" (.bool false)
      = .error ("Unable to convert string to type " ++ kindName .other) := by
  constructor
  · exact
      ((c3_file_value_conversion
        { stringFlag := fun _ => "", sliceFlag := fun _ => [],
          boolFlag := fun _ => false, intFlag := fun _ => 0, args := [],
          isSet := fun _ => false, flags := [], appName := "app",
          commandName := "cmd" }
        (fun _ => none) (fun k => if k == "foo" then some "true" else none)
        "Field" "foo" "" (.bool false) "true" (by decide) rfl
        rfl).2.2.1).trans rfl
  · exact
      (c3_file_value_conversion
        { stringFlag := fun _ => "", sliceFlag := fun _ => [],
          boolFlag := fun _ => false, intFlag := fun _ => 0, args := [],
          isSet := fun _ => false, flags := [], appName := "app",
          commandName := "cmd" }
        (fun _ => none) (fun k => if k == "foo" then some "true" else none)
        "Field" "foo" "" (.bool false) "true" (by decide) rfl
        rfl).2.2.2.2

/-- C4: an explicitly passed config path that does not exist fails with the
file-not-found error naming the resolved absolute path; with no explicit path
the default candidates are scanned in order and the first existing one is
selected; when none exists the load proceeds with no config file and no
error. -/
theorem c4_config_file_selection
    (configFlag : String) (defaults : List String) (ex : String → Bool)
    (abs : String → String) :
    (configFlag ≠ "" → ex configFlag = false →
      selectConfigFile configFlag defaults ex abs
        = .error ("A configuration file could not be found at: \"" ++
            abs configFlag ++ "\""))
    ∧ (configFlag = "" →
      selectConfigFile configFlag defaults ex abs = .ok (defaults.find? ex))
    ∧ (configFlag = "" → (∀ p ∈ defaults, ex p = false) →
      selectConfigFile configFlag defaults ex abs = .ok none) := by
  refine ⟨fun h1 h2 => ?_, fun h1 => ?_, fun h1 h2 => ?_⟩
  · simp [selectConfigFile, h1, h2]
  · subst h1
    cases defaults with
    | nil => simp [selectConfigFile, firstExisting]
    | cons hd tl => simp [selectConfigFile, firstExisting_eq_find]
  · subst h1
    cases defaults with
    | nil => simp [selectConfigFile, firstExisting]
    | cons hd tl =>
        have : List.find? ex (hd :: tl) = none :=
          List.find?_eq_none.mpr (fun x hx => by simp [h2 x hx])
        simp [selectConfigFile, firstExisting_eq_find, this]

/-- C4 witness: explicit missing path `/missing/path` fails naming the
absolute path; no explicit path with one existing default selects it; no
explicit path with no existing default selects nothing without error. -/
theorem c4_witness :
    selectConfigFile "/missing/path" ["d1", "d2"] (fun _ => false)
        (fun p => p)
      = .error ("A configuration file could not be found at: \"" ++
          "/missing/path" ++ "\"")
    ∧ selectConfigFile "" ["d1", "d2"] (fun p => p == "d2") (fun p => p)
      = .ok (some "d2")
    ∧ selectConfigFile "" ["d1", "d2"] (fun _ => false) (fun p => p)
      = .ok none := by
  refine ⟨?_, ?_, ?_⟩
  · exact
      (c4_config_file_selection "/missing/path" ["d1", "d2"] (fun _ => false)
        (fun p => p)).1 (by decide) rfl
  · exact
      ((c4_config_file_selection "" ["d1", "d2"] (fun p => p == "d2")
        (fun p => p)).2.1 rfl).trans rfl
  · exact
      (c4_config_file_selection "" ["d1", "d2"] (fun _ => false)
        (fun p => p)).2.2 rfl (by decide)

/-- C5: a field whose binding name matches the positional pattern `arg:N`
resolves to the positional argument at index `N` when the argument list is
long enough; otherwise it falls back to the field's declared environment
variable when that variable is set; otherwise the field keeps its previous
value. (Stated for a string field, where assignment always succeeds.) -/
theorem c5_positional_fields
    (ctx : CLIContext) (env : String → Option String)
    (file : Option (String → Option String))
    (fieldName cliName envTag : String) (oldValue : Value) (i : Nat)
    (hname : findArg cliName.data = some i) :
    (∀ h : i < ctx.args.length,
      setFieldValueFromCLI ctx env file .string fieldName cliName envTag
          oldValue
        = .ok (.str (ctx.args.get ⟨i, h⟩)))
    ∧ (ctx.args.length ≤ i →
      (∀ e, env envTag = some e →
        setFieldValueFromCLI ctx env file .string fieldName cliName envTag
            oldValue
          = .ok (.str e))
      ∧ (env envTag = none →
        setFieldValueFromCLI ctx env file .string fieldName cliName envTag
            oldValue
          = .ok oldValue)) := by
  refine ⟨fun h => ?_, fun h => ⟨fun e he => ?_, fun he => ?_⟩⟩
  · simp [setFieldValueFromCLI, resolveValue, hname, dif_pos h, setField,
      variantMatches]
  · have hlt : ¬ i < ctx.args.length := Nat.not_lt.mpr h
    simp [setFieldValueFromCLI, resolveValue, hname, dif_neg hlt, he,
      setField, variantMatches]
  · have hlt : ¬ i < ctx.args.length := Nat.not_lt.mpr h
    simp [setFieldValueFromCLI, resolveValue, hname, dif_neg hlt, he]

/-- C5 witness: binding `arg:0` with argument list `["value1"]` resolves to
`value1`; with an empty argument list and env var `FOO=x`, resolves to `x`. -/
theorem c5_witness :
    setFieldValueFromCLI
        { stringFlag := fun _ => "", sliceFlag := fun _ => [],
          boolFlag := fun _ => false, intFlag := fun _ => 0,
          args := ["value1"], isSet := fun _ => false, flags := [],
          appName := "app", commandName := "cmd" }
        (fun _ => none) none .string "Field" "arg:0" "FOO" (.str "")
      = .ok (.str "value1")
    ∧ setFieldValueFromCLI
        { stringFlag := fun _ => "", sliceFlag := fun _ => [],
          boolFlag := fun _ => false, intFlag := fun _ => 0, args := [],
          isSet := fun _ => false, flags := [], appName := "app",
          commandName := "cmd" }
        (fun v => if v == "FOO" then some "x" else none) none .string "Field"
        "arg:0" "FOO" (.str "")
      = .ok (.str "x") := by
  constructor
  · exact
      (c5_positional_fields
        { stringFlag := fun _ => "", sliceFlag := fun _ => [],
          boolFlag := fun _ => false, intFlag := fun _ => 0,
          args := ["value1"], isSet := fun _ => false, flags := [],
          appName := "app", commandName := "cmd" }
        (fun _ => none) none "Field" "arg:0" "FOO" (.str "") 0
        (by decide)).1 (by decide)
  · exact
      ((c5_positional_fields
        { stringFlag := fun _ => "", sliceFlag := fun _ => [],
          boolFlag := fun _ => false, intFlag := fun _ => 0, args := [],
          isSet := fun _ => false, flags := [], appName := "app",
          commandName := "cmd" }
        (fun v => if v == "FOO" then some "x" else none) none "Field" "arg:0"
        "FOO" (.str "") 0 (by decide)).2 (by decide)).1 "x" rfl

/-- C6: a `required` validation rule fails with the help-suffixed error
`Missing <label>.` exactly when the field's value is empty/zero for its kind,
and the label is the declared `label` tag if present, else the `cli` binding
name, else the raw field name, in that preference order. -/
theorem c6_required_validation
    (fs : String → Bool) (kind : FieldKind) (v : Value)
    (labelTag cliName fieldName appName commandName : String) (b : Bool)
    (hv : fieldValueIsEmpty kind v = some b) :
    validateField fs kind v (labelFor labelTag cliName fieldName) appName
        commandName "required"
      = (if b then
          LoadResult.err ("Missing " ++ labelFor labelTag cliName fieldName ++
            "." ++ helpSuffix appName commandName)
        else .ok ())
    ∧ (labelTag ≠ "" → labelFor labelTag cliName fieldName = labelTag)
    ∧ (labelTag = "" → cliName ≠ "" →
        labelFor labelTag cliName fieldName = cliName)
    ∧ (labelTag = "" → cliName = "" →
        labelFor labelTag cliName fieldName = fieldName) := by
  have hsplit : goSplitComma "required" = ["required"] := by decide
  refine ⟨?_, fun h1 => ?_, fun h1 h2 => ?_, fun h1 h2 => ?_⟩
  · cases b <;> simp [validateField, hsplit, validateRules, hv]
  · simp [labelFor, h1]
  · simp [labelFor, h1, h2]
  · simp [labelFor, h1, h2]

/-- C6 witness: a required empty string field with label tag `the-label`
fails with `Missing the-label.` plus the help suffix; a non-empty value
passes. -/
theorem c6_witness :
    validateField (fun _ => false) .string (.str "")
        (labelFor "the-label" "cli-name" "Field") "app" "cmd" "required"
      = .err ("Missing " ++ labelFor "the-label" "cli-name" "Field" ++ "." ++
          helpSuffix "app" "cmd")
    ∧ validateField (fun _ => false) .string (.str "ok")
        (labelFor "the-label" "cli-name" "Field") "app" "cmd" "required"
      = .ok ()
    ∧ labelFor "the-label" "cli-name" "Field" = "the-label"
    ∧ labelFor "" "cli-name" "Field" = "cli-name"
    ∧ labelFor "" "" "Field" = "Field" := by
  refine ⟨?_, ?_, ?_, ?_, ?_⟩
  · exact
      ((c6_required_validation (fun _ => false) .string (.str "") "the-label"
        "cli-name" "Field" "app" "cmd" true (by decide)).1).trans (by simp)
  · exact
      ((c6_required_validation (fun _ => false) .string (.str "ok")
        "the-label" "cli-name" "Field" "app" "cmd" false (by decide)).1).trans
        (by simp)
  · exact
      (c6_required_validation (fun _ => false) .string (.str "") "the-label"
        "cli-name" "Field" "app" "cmd" true (by decide)).2.1 (by decide)
  · exact
      (c6_required_validation (fun _ => false) .string (.str "") "" "cli-name"
        "Field" "app" "cmd" true (by decide)).2.2.1 rfl (by decide)
  · exact
      (c6_required_validation (fun _ => false) .string (.str "") "" "" "Field"
        "app" "cmd" true (by decide)).2.2.2 rfl rfl

/-- C7: `list` normalization splits every element on commas, discards empty
tokens and preserves the order of the remaining tokens; in particular
`["a,b", "", "c"]` normalizes to `["a", "b", "c"]`. -/
theorem c7_list_normalization (l : List String) :
    normalizeFieldList .slice (.list l)
      = .ok (.list (((l.map goSplitComma).flatten).filter (fun t => t != "")))
    ∧ normalizeList ["a,b", "", "c"] = ["a", "b", "c"] := by
  constructor
  · have h : normalizeFieldList .slice (.list l)
        = .ok (.list (normalizeList l)) := rfl
    rw [h, normalizeList_eq]
  · decide

/-- C8: resolution never assigns an unset (`nil`) value: whenever no value was
determined from positional arguments, environment, config file or command
context, the field keeps its prior value unchanged. -/
theorem c8_unresolved_keeps_old_value
    (ctx : CLIContext) (env : String → Option String)
    (file : Option (String → Option String)) (kind : FieldKind)
    (fieldName cliName envTag : String) (oldValue : Value)
    (hnone : resolveValue ctx env file kind cliName envTag = .ok none) :
    setFieldValueFromCLI ctx env file kind fieldName cliName envTag oldValue
      = .ok oldValue := by
  simp [setFieldValueFromCLI, hnone]

/-- C8 witness: a positional binding with too few arguments and no
environment value determines nothing, and the field keeps its prior value. -/
theorem c8_witness :
    resolveValue
        { stringFlag := fun _ => "", sliceFlag := fun _ => [],
          boolFlag := fun _ => false, intFlag := fun _ => 0, args := [],
          isSet := fun _ => false, flags := [], appName := "app",
          commandName := "cmd" }
        (fun _ => none) none .string "arg:0" ""
      = .ok none
    ∧ setFieldValueFromCLI
        { stringFlag := fun _ => "", sliceFlag := fun _ => [],
          boolFlag := fun _ => false, intFlag := fun _ => 0, args := [],
          isSet := fun _ => false, flags := [], appName := "app",
          commandName := "cmd" }
        (fun _ => none) none .string "Field" "arg:0" "" (.str "keep")
      = .ok (.str "keep") := by
  constructor
  · rfl
  · exact
      c8_unresolved_keeps_old_value
        { stringFlag := fun _ => "", sliceFlag := fun _ => [],
          boolFlag := fun _ => false, intFlag := fun _ => 0, args := [],
          isSet := fun _ => false, flags := [], appName := "app",
          commandName := "cmd" }
        (fun _ => none) none .string "Field" "arg:0" "" (.str "keep") rfl

/-- C9: for a field of any kind other than string, slice, bool or int, the
emptiness check panics (modelled by `none` / `LoadResult.panicked`) instead of
returning an error, in every context that triggers it: the `required`
validation rule, the rename-migration step and the deprecation step. -/
theorem c9_unsupported_kind_panics
    (fs : String → Bool) (renamedKind : FieldKind) (v rv : Value)
    (cliName renamedCliName renamedFieldName label appName commandName
      deprecationError : String) (warnings : List String) :
    fieldValueIsEmpty .other v = none
    ∧ validateField fs .other v label appName commandName "required"
      = .panicked (emptinessPanicMsg .other)
    ∧ renameStep .other renamedKind cliName renamedCliName renamedFieldName v
        rv warnings
      = .panicked (emptinessPanicMsg .other)
    ∧ deprecatedStep .other v cliName deprecationError warnings
      = .panicked (emptinessPanicMsg .other) := by
  have hsplit : goSplitComma "required" = ["required"] := by decide
  refine ⟨rfl, ?_, rfl, rfl⟩
  simp [validateField, hsplit, validateRules, fieldValueIsEmpty]

/-- C10: a `file-exists` validation rule on a field whose value is not a
string performs no filesystem check and never fails: it succeeds silently for
every filesystem state. -/
theorem c10_file_exists_skips_nonstring
    (fs : String → Bool) (kind : FieldKind) (v : Value)
    (label appName commandName : String)
    (h : ∀ s, v ≠ Value.str s) :
    validateField fs kind v label appName commandName "file-exists"
      = .ok () := by
  have hsplit : goSplitComma "file-exists" = ["file-exists"] := by decide
  cases v with
  | str s => exact absurd rfl (h s)
  | list l => simp [validateField, hsplit, validateRules]
  | bool b => simp [validateField, hsplit, validateRules]
  | int n => simp [validateField, hsplit, validateRules]

/-- C10 witness: `file-exists` on an int-valued field succeeds even on a
filesystem where no path exists. -/
theorem c10_witness :
    (∀ s, Value.int 3 ≠ Value.str s)
    ∧ validateField (fun _ => false) .int (.int 3) "the-label" "app" "cmd"
        "file-exists"
      = .ok () :=
  ⟨fun _ h => Value.noConfusion h,
    c10_file_exists_skips_nonstring (fun _ => false) .int (.int 3) "the-label"
      "app" "cmd" (fun _ h => Value.noConfusion h)⟩

end CliConfig
